import Mathlib

/-!
Verification development for the altai-tanba document-processing backend.

The definitions below are a shallow embedding of the Python sources under
`src/backend/src`:

* `modules/mark_service/utils.py` (`yolo_results_to_detections`),
* `modules/mark_service/services/document_processor.py` (`run_inference_on_pages`),
* `modules/mark_service/formatters.py` (`build_challenge_json`),
* `modules/sessions/service.py` (intake),
* `modules/document_analysis/document_analysis_service.py` (analysis service),
* `modules/sessions/processors.py` (`process_document_async`).

Machine floats are modelled as exact rationals, Python byte strings as opaque
`String`s, and external collaborators (S3, OCR, LLM, the YOLO detectors, the
database driver) as environment-supplied outcomes, following the
interface-boundary treatment of the specification.  Python `dict`s are
modelled as insertion-ordered association lists with in-place overwrite,
matching CPython semantics.
-/

namespace AltaiTanba

/-- Document status enum of the `SessionDocument` row. -/
inductive DocStatus
  | PENDING
  | SUCCESSFUL
  | FAILED
deriving DecidableEq

/-- Session status enum of the `Session` row. -/
inductive SessionStatus
  | PROCESSING
  | SUCCESS
  | FAILED
deriving DecidableEq

/-- Status enum of the `DocumentAnalysis` row. -/
inductive AnalysisStatus
  | PROCESSING
  | COMPLETED
  | FAILED
deriving DecidableEq

/-- The three detector categories; in the source these are the strings
`"qr"`, `"signature"` and `"stamp"`. -/
inductive Category
  | qr
  | signature
  | stamp
deriving DecidableEq

/-- One raw model box as exposed by ultralytics: corner coordinates
`xyxy = (x1, y1, x2, y2)` and a confidence score (`box.conf[0]`). -/
structure RawBox where
  x1 : Rat
  y1 : Rat
  x2 : Rat
  y2 : Rat
  conf : Rat
deriving DecidableEq

/-- `Detection` dataclass from `modules/mark_service/types.py`. -/
structure Detection where
  category : Category
  x : Rat
  y : Rat
  w : Rat
  h : Rat
  area : Rat
  confidence : Rat
deriving DecidableEq

/-- `PageImage` dataclass from `modules/mark_service/types.py` (the file path
is irrelevant to the verified properties and is dropped), extended with the
raw output each of the three external YOLO detectors produces on this page's
image.  A detector is a pure function of the image, so carrying its output on
the page record is the boundary model of `self.qr_model(image_paths)[idx]`
etc. in `run_inference_on_pages`. -/
structure PageImage where
  index : Nat
  width : Int
  height : Int
  qrBoxes : List RawBox
  sigBoxes : List RawBox
  stampBoxes : List RawBox
deriving DecidableEq

/-- Embedding of `yolo_results_to_detections` (`modules/mark_service/utils.py`
lines 13-34): boxes with `conf < conf_thres` are skipped, the rest are turned
into `Detection(category, x=x1, y=y1, w=x2-x1, h=y2-y1, area=w*h,
confidence=conf)` in input order. -/
def yolo_results_to_detections (boxes : List RawBox) (category : Category)
    (conf_thres : Rat) : List Detection :=
  boxes.filterMap fun box =>
    if box.conf < conf_thres then
      none
    else
      some { category := category
             x := box.x1
             y := box.y1
             w := box.x2 - box.x1
             h := box.y2 - box.y1
             area := (box.x2 - box.x1) * (box.y2 - box.y1)
             confidence := box.conf }

/-- Python `dict` update `m[k] = v`: overwrite in place if the key exists,
otherwise append at the end (insertion order). -/
def dictSet {α β : Type} [DecidableEq α] (m : List (α × β)) (k : α) (v : β) :
    List (α × β) :=
  if m.any (fun kv => kv.1 = k) then
    m.map (fun kv => if kv.1 = k then (k, v) else kv)
  else
    m ++ [(k, v)]

/-- Python `m[k].extend(ds)` on a dict of lists (key assumed present). -/
def dictExtend {β : Type} (m : List (Nat × List β)) (k : Nat)
    (ds : List β) : List (Nat × List β) :=
  m.map fun kv => if kv.1 = k then (kv.1, kv.2 ++ ds) else kv

/-- The per-page merged detections of `run_inference_on_pages`:
qr first, then signature, then stamp. -/
def pageDets (p : PageImage) (conf_thres : Rat) : List Detection :=
  yolo_results_to_detections p.qrBoxes Category.qr conf_thres
    ++ yolo_results_to_detections p.sigBoxes Category.signature conf_thres
    ++ yolo_results_to_detections p.stampBoxes Category.stamp conf_thres

/-- Embedding of `DigitalInspectorProcessor.run_inference_on_pages`
(`modules/mark_service/services/document_processor.py` lines 46-74):
empty page list yields the empty dict; otherwise the dict
`{p.index: [] for p in pages}` is built and then, per page in order, the
filtered qr, signature and stamp detections are appended to the entry of
that page's index. -/
def run_inference_on_pages (pages : List PageImage) (conf_thres : Rat) :
    List (Nat × List Detection) :=
  if pages.isEmpty then
    []
  else
    let init := pages.foldl (fun m p => dictSet m p.index []) []
    pages.foldl
      (fun m p =>
        dictExtend
          (dictExtend
            (dictExtend m p.index
              (yolo_results_to_detections p.qrBoxes Category.qr conf_thres))
            p.index
            (yolo_results_to_detections p.sigBoxes Category.signature conf_thres))
          p.index
          (yolo_results_to_detections p.stampBoxes Category.stamp conf_thres))
      init

/-- Embedding of the flag-derivation loop of `process_document_async`
(`modules/sessions/processors.py` lines 70-92): fold over all detections of
all pages, setting `has_qr` / `has_stamp` / `has_signature` when a detection
of that category is seen.  The triple is `(has_qr, has_stamp, has_signature)`. -/
def computeFlags (pds : List (Nat × List Detection)) : Bool × Bool × Bool :=
  pds.foldl
    (fun acc kv =>
      kv.2.foldl
        (fun a d =>
          match d.category with
          | Category.qr => (true, a.2.1, a.2.2)
          | Category.stamp => (a.1, true, a.2.2)
          | Category.signature => (a.1, a.2.1, true))
        acc)
    (false, false, false)

/-- The `Detection` built from one above-threshold raw box. -/
def detOfBox (c : Category) (b : RawBox) : Detection :=
  { category := c
    x := b.x1
    y := b.y1
    w := b.x2 - b.x1
    h := b.y2 - b.y1
    area := (b.x2 - b.x1) * (b.y2 - b.y1)
    confidence := b.conf }

lemma yolo_eq_filter_map (boxes : List RawBox) (c : Category) (t : Rat) :
    yolo_results_to_detections boxes c t
      = (boxes.filter (fun b => ! decide (b.conf < t))).map (detOfBox c) := by
  induction boxes with
  | nil => rfl
  | cons b bs ih =>
    by_cases h : b.conf < t
    · simp [yolo_results_to_detections, List.filterMap_cons, List.filter_cons, h] at ih ⊢
      exact ih
    · simp [yolo_results_to_detections, List.filterMap_cons, List.filter_cons, h, detOfBox] at ih ⊢
      exact ih

lemma mem_yolo {d : Detection} {boxes : List RawBox} {c : Category} {t : Rat}
    (hd : d ∈ yolo_results_to_detections boxes c t) :
    ∃ b ∈ boxes, ¬ b.conf < t ∧ d = detOfBox c b := by
  rw [yolo_eq_filter_map] at hd
  obtain ⟨b, hb, rfl⟩ := List.mem_map.mp hd
  obtain ⟨hmem, hconf⟩ := List.mem_filter.mp hb
  exact ⟨b, hmem, by simpa using hconf, rfl⟩

lemma dictExtend_dictExtend {β : Type} (m : List (Nat × List β)) (k : Nat)
    (a b : List β) :
    dictExtend (dictExtend m k a) k b = dictExtend m k (a ++ b) := by
  unfold dictExtend
  rw [List.map_map]
  apply List.map_congr_left
  intro kv _
  by_cases h : kv.1 = k
  · simp [Function.comp, h, List.append_assoc]
  · simp [Function.comp, h]

lemma dictExtend_not_mem {β : Type} (B : List (Nat × List β)) (k : Nat)
    (ds : List β) (hB : ∀ kv ∈ B, kv.1 ≠ k) : dictExtend B k ds = B := by
  induction B with
  | nil => rfl
  | cons kv tl ih =>
    unfold dictExtend
    simp only [List.map_cons]
    rw [if_neg (hB kv (List.mem_cons_self kv tl))]
    have := ih (fun q hq => hB q (List.mem_cons_of_mem kv hq))
    unfold dictExtend at this
    rw [this]

lemma dictExtend_middle {β : Type} (A B : List (Nat × List β)) (k : Nat)
    (v ds : List β) (hA : ∀ kv ∈ A, kv.1 ≠ k) (hB : ∀ kv ∈ B, kv.1 ≠ k) :
    dictExtend (A ++ (k, v) :: B) k ds = A ++ (k, v ++ ds) :: B := by
  unfold dictExtend
  rw [List.map_append, List.map_cons, if_pos rfl]
  have h1 : A.map (fun kv => if kv.1 = k then (kv.1, kv.2 ++ ds) else kv) = A := by
    have := dictExtend_not_mem A k ds hA
    unfold dictExtend at this
    exact this
  have h2 : B.map (fun kv => if kv.1 = k then (kv.1, kv.2 ++ ds) else kv) = B := by
    have := dictExtend_not_mem B k ds hB
    unfold dictExtend at this
    exact this
  rw [h1, h2]

lemma dictSet_fresh {α β : Type} [DecidableEq α] (m : List (α × β)) (k : α)
    (v : β) (h : ∀ kv ∈ m, kv.1 ≠ k) : dictSet m k v = m ++ [(k, v)] := by
  unfold dictSet
  rw [if_neg]
  simp only [List.any_eq_true, decide_eq_true_eq, not_exists]
  intro kv hkv
  exact h kv hkv.1 hkv.2

lemma initFold_eq (pages : List PageImage) (m0 : List (Nat × List Detection))
    (hdisj : ∀ p ∈ pages, ∀ kv ∈ m0, kv.1 ≠ p.index)
    (hnd : (pages.map (fun p => p.index)).Nodup) :
    pages.foldl (fun m p => dictSet m p.index ([] : List Detection)) m0
      = m0 ++ pages.map (fun p => (p.index, [])) := by
  induction pages generalizing m0 with
  | nil => simp
  | cons p tl ih =>
    simp only [List.map_cons, List.nodup_cons] at hnd
    simp only [List.foldl_cons]
    rw [dictSet_fresh m0 p.index [] (hdisj p (List.mem_cons_self p tl))]
    rw [ih (m0 ++ [(p.index, [])])]
    · simp
    · intro q hq kv hkv
      rcases List.mem_append.mp hkv with h | h
      · exact hdisj q (List.mem_cons_of_mem p hq) kv h
      · simp only [List.mem_singleton] at h
        subst h
        intro he
        have he2 : p.index = q.index := he
        apply hnd.1
        rw [he2]
        exact List.mem_map_of_mem (fun p => p.index) hq
    · exact hnd.2

lemma extendFold_eq (t : Rat) (qs : List PageImage)
    (done : List (Nat × List Detection))
    (hdisj : ∀ p ∈ qs, ∀ kv ∈ done, kv.1 ≠ p.index)
    (hnd : (qs.map (fun p => p.index)).Nodup) :
    qs.foldl
      (fun m p =>
        dictExtend
          (dictExtend
            (dictExtend m p.index
              (yolo_results_to_detections p.qrBoxes Category.qr t))
            p.index
            (yolo_results_to_detections p.sigBoxes Category.signature t))
          p.index
          (yolo_results_to_detections p.stampBoxes Category.stamp t))
      (done ++ qs.map (fun p => (p.index, [])))
      = done ++ qs.map (fun p => (p.index, pageDets p t)) := by
  induction qs generalizing done with
  | nil => simp
  | cons p tl ih =>
    simp only [List.map_cons, List.nodup_cons] at hnd
    simp only [List.foldl_cons, List.map_cons]
    rw [dictExtend_dictExtend, dictExtend_dictExtend]
    have hAfresh : ∀ kv ∈ done, kv.1 ≠ p.index := hdisj p (List.mem_cons_self p tl)
    have hBfresh : ∀ kv ∈ tl.map (fun q => (q.index, ([] : List Detection))),
        kv.1 ≠ p.index := by
      intro kv hkv
      obtain ⟨q, hq, rfl⟩ := List.mem_map.mp hkv
      intro he
      apply hnd.1
      rw [← he]
      exact List.mem_map_of_mem (fun p => p.index) hq
    rw [show done ++ (p.index, ([] : List Detection))
          :: tl.map (fun q => (q.index, ([] : List Detection)))
        = done ++ ((p.index, ([] : List Detection))
          :: tl.map (fun q => (q.index, ([] : List Detection)))) from rfl]
    rw [dictExtend_middle done _ p.index [] _ hAfresh hBfresh]
    simp only [List.nil_append, List.append_assoc]
    have step := ih (done ++ [(p.index, pageDets p t)])
      (by
        intro q hq kv hkv
        rcases List.mem_append.mp hkv with h | h
        · exact hdisj q (List.mem_cons_of_mem p hq) kv h
        · simp only [List.mem_singleton] at h
          subst h
          intro he
          have he2 : p.index = q.index := he
          apply hnd.1
          rw [he2]
          exact List.mem_map_of_mem (fun p => p.index) hq)
      hnd.2
    simp only [List.append_assoc, List.singleton_append] at step
    simp only [pageDets, List.append_assoc] at step ⊢
    exact step

lemma run_inference_eq_map (pages : List PageImage) (t : Rat)
    (hnd : (pages.map (fun p => p.index)).Nodup) :
    run_inference_on_pages pages t
      = pages.map (fun p => (p.index, pageDets p t)) := by
  cases pages with
  | nil => rfl
  | cons p ps =>
    unfold run_inference_on_pages
    rw [if_neg (by simp)]
    rw [initFold_eq (p :: ps) [] (by simp) hnd]
    simpa using extendFold_eq t (p :: ps) [] (by simp) hnd

lemma flagsFold_dets (ds : List Detection) (a : Bool × Bool × Bool) :
    ds.foldl
      (fun a d =>
        match d.category with
        | Category.qr => (true, a.2.1, a.2.2)
        | Category.stamp => (a.1, true, a.2.2)
        | Category.signature => (a.1, a.2.1, true))
      a
      = (a.1 || ds.any (fun d => d.category == Category.qr),
         a.2.1 || ds.any (fun d => d.category == Category.stamp),
         a.2.2 || ds.any (fun d => d.category == Category.signature)) := by
  induction ds generalizing a with
  | nil => simp
  | cons d tl ih =>
    rw [List.foldl_cons, ih]
    cases hc : d.category <;>
      simp [hc, List.any_cons, Bool.or_assoc,
        show (Category.qr == Category.stamp) = false from rfl,
        show (Category.qr == Category.signature) = false from rfl,
        show (Category.stamp == Category.qr) = false from rfl,
        show (Category.stamp == Category.signature) = false from rfl,
        show (Category.signature == Category.qr) = false from rfl,
        show (Category.signature == Category.stamp) = false from rfl]

lemma computeFlags_eq (pds : List (Nat × List Detection)) :
    computeFlags pds
      = (pds.any (fun kv => kv.2.any (fun d => d.category == Category.qr)),
         pds.any (fun kv => kv.2.any (fun d => d.category == Category.stamp)),
         pds.any (fun kv => kv.2.any (fun d => d.category == Category.signature))) := by
  unfold computeFlags
  suffices h : ∀ a : Bool × Bool × Bool,
      pds.foldl
        (fun acc kv =>
          kv.2.foldl
            (fun a d =>
              match d.category with
              | Category.qr => (true, a.2.1, a.2.2)
              | Category.stamp => (a.1, true, a.2.2)
              | Category.signature => (a.1, a.2.1, true))
            acc)
        a
        = (a.1 || pds.any (fun kv => kv.2.any (fun d => d.category == Category.qr)),
           a.2.1 || pds.any (fun kv => kv.2.any (fun d => d.category == Category.stamp)),
           a.2.2 || pds.any (fun kv => kv.2.any (fun d => d.category == Category.signature))) by
    simpa using h (false, false, false)
  induction pds with
  | nil => simp
  | cons kv tl ih =>
    intro a
    rw [List.foldl_cons, flagsFold_dets, ih]
    simp [List.any_cons, Bool.or_assoc]

/-- Claim C6: for every page sequence and confidence threshold, the detection
aggregation discards exactly the boxes whose confidence is strictly below the
threshold, and merges the per-page results preserving page order, each page's
detection list being the qr detections, then the signature detections, then
the stamp detections.  The page indices are assumed pairwise distinct, which
`pdf_to_images` guarantees (`enumerate(doc, start=1)` in
`core/utils/pdf.py`). -/
theorem claim_C6_merge_and_threshold (pages : List PageImage) (t : Rat)
    (hnd : (pages.map (fun p => p.index)).Nodup) :
    run_inference_on_pages pages t
        = pages.map (fun p => (p.index, pageDets p t)) ∧
    (∀ p ∈ pages,
      pageDets p t
        = (p.qrBoxes.filter (fun b => ! decide (b.conf < t))).map
            (detOfBox Category.qr)
          ++ (p.sigBoxes.filter (fun b => ! decide (b.conf < t))).map
            (detOfBox Category.signature)
          ++ (p.stampBoxes.filter (fun b => ! decide (b.conf < t))).map
            (detOfBox Category.stamp)) ∧
    (∀ kv ∈ run_inference_on_pages pages t, ∀ d ∈ kv.2, ¬ d.confidence < t) := by
  refine ⟨run_inference_eq_map pages t hnd, ?_, ?_⟩
  · intro p _
    simp [pageDets, yolo_eq_filter_map]
  · intro kv hkv d hd
    rw [run_inference_eq_map pages t hnd] at hkv
    obtain ⟨p, _, rfl⟩ := List.mem_map.mp hkv
    simp only [pageDets, List.mem_append] at hd
    rcases hd with (hd | hd) | hd <;>
    · obtain ⟨b, _, hc, rfl⟩ := mem_yolo hd
      simpa [detOfBox] using hc

/-- A concrete two-page document for the C6 witness: a qr box above the
threshold and a stamp box below it on page 1, a signature box on page 2. -/
def pagesW6 : List PageImage :=
  [{ index := 1, width := 100, height := 100,
     qrBoxes := [{ x1 := 1, y1 := 2, x2 := 11, y2 := 12, conf := 9/10 }],
     sigBoxes := [],
     stampBoxes := [{ x1 := 0, y1 := 0, x2 := 5, y2 := 5, conf := 1/10 }] },
   { index := 2, width := 100, height := 100,
     qrBoxes := [],
     sigBoxes := [{ x1 := 3, y1 := 4, x2 := 7, y2 := 9, conf := 1/2 }],
     stampBoxes := [] }]

/-- Witness for C6 at a concrete input: the hypothesis (distinct page indices)
holds and the conclusion evaluates. -/
theorem claim_C6_witness :
    (pagesW6.map (fun p => p.index)).Nodup ∧
    (run_inference_on_pages pagesW6 (1/4)
        = pagesW6.map (fun p => (p.index, pageDets p (1/4))) ∧
    (∀ p ∈ pagesW6,
      pageDets p (1/4)
        = (p.qrBoxes.filter (fun b => ! decide (b.conf < (1/4)))).map
            (detOfBox Category.qr)
          ++ (p.sigBoxes.filter (fun b => ! decide (b.conf < (1/4)))).map
            (detOfBox Category.signature)
          ++ (p.stampBoxes.filter (fun b => ! decide (b.conf < (1/4)))).map
            (detOfBox Category.stamp)) ∧
    (∀ kv ∈ run_inference_on_pages pagesW6 (1/4), ∀ d ∈ kv.2,
        ¬ d.confidence < (1/4))) :=
  ⟨by decide, claim_C6_merge_and_threshold pagesW6 (1/4) (by decide)⟩

/-- Claim C7: each of the three flags is true exactly when at least one
detection of that category exists on some page of the document, and a
zero-page document yields empty detections and all-false flags.  The flag
triple is `(hasQR, hasStamp, hasSignature)` as computed by the loop in
`process_document_async` over the inference result. -/
theorem claim_C7_flags (pages : List PageImage) (t : Rat) :
    ((computeFlags (run_inference_on_pages pages t)).1 = true
      ↔ ∃ kv ∈ run_inference_on_pages pages t, ∃ d ∈ kv.2,
          d.category = Category.qr) ∧
    ((computeFlags (run_inference_on_pages pages t)).2.1 = true
      ↔ ∃ kv ∈ run_inference_on_pages pages t, ∃ d ∈ kv.2,
          d.category = Category.stamp) ∧
    ((computeFlags (run_inference_on_pages pages t)).2.2 = true
      ↔ ∃ kv ∈ run_inference_on_pages pages t, ∃ d ∈ kv.2,
          d.category = Category.signature) ∧
    run_inference_on_pages ([] : List PageImage) t = [] ∧
    computeFlags (run_inference_on_pages ([] : List PageImage) t)
      = (false, false, false) := by
  refine ⟨?_, ?_, ?_, rfl, rfl⟩ <;>
  · rw [computeFlags_eq]
    simp [List.any_eq_true]

/-- A page whose qr detector reports a box protruding past the left page
edge (`x1 = -5`): nothing in `yolo_results_to_detections` clamps coordinates
to the page, so the persisted `Detection` keeps `x = -5`. -/
def pageC8 : PageImage :=
  { index := 1, width := 100, height := 100,
    qrBoxes := [{ x1 := -5, y1 := 0, x2 := 10, y2 := 10, conf := 1 }],
    sigBoxes := [],
    stampBoxes := [] }

/-- Counterexample to claim C8 as stated: on `pageC8` the pipeline persists a
detection with `x = -5`, so `0 ≤ x` fails; the code performs no clamping of
raw model boxes to the page rectangle. -/
theorem claim_C8_counterexample :
    run_inference_on_pages [pageC8] (1/4)
      = [(1, [{ category := Category.qr, x := -5, y := 0, w := 15, h := 10,
                area := 150, confidence := 1 }])] ∧
    ¬ (0 : Rat) ≤ (-5 : Rat) := by
  constructor
  · rw [run_inference_eq_map [pageC8] (1/4) (by decide)]
    have hconf : ¬ (1 : Rat) < 1/4 := by norm_num
    simp only [List.map_cons, List.map_nil, pageC8, pageDets,
      yolo_results_to_detections, List.filterMap_cons, List.filterMap_nil,
      if_neg hconf]
    norm_num
  · norm_num

/-- Claim C8 amended: a persisted `Detection` copies its raw model box
unchanged (`x = x1`, `y = y1`, `x + width = x2`, `y + height = y2`), so it
lies within page `p` exactly when the raw box does; in particular, whenever
every raw box of `p` lies within the page, so does every persisted detection
of `p`.  Page indices are assumed pairwise distinct (guaranteed by
`pdf_to_images`). -/
theorem claim_C8_amended (pages : List PageImage) (t : Rat)
    (hnd : (pages.map (fun p => p.index)).Nodup)
    (p : PageImage) (hp : p ∈ pages)
    (hboxes : ∀ b ∈ p.qrBoxes ++ p.sigBoxes ++ p.stampBoxes,
        0 ≤ b.x1 ∧ 0 ≤ b.y1 ∧ b.x1 ≤ b.x2 ∧ b.x2 ≤ (p.width : Rat)
          ∧ b.y1 ≤ b.y2 ∧ b.y2 ≤ (p.height : Rat)) :
    (p.index, pageDets p t) ∈ run_inference_on_pages pages t ∧
    ∀ d ∈ pageDets p t,
      (∃ b ∈ p.qrBoxes ++ p.sigBoxes ++ p.stampBoxes,
          d.x = b.x1 ∧ d.y = b.y1 ∧ d.x + d.w = b.x2 ∧ d.y + d.h = b.y2) ∧
      0 ≤ d.x ∧ 0 ≤ d.y ∧ d.x + d.w ≤ (p.width : Rat)
        ∧ d.y + d.h ≤ (p.height : Rat) := by
  constructor
  · rw [run_inference_eq_map pages t hnd]
    exact List.mem_map.mpr ⟨p, hp, rfl⟩
  · intro d hd
    have hsrc : ∃ b ∈ p.qrBoxes ++ p.sigBoxes ++ p.stampBoxes,
        d.x = b.x1 ∧ d.y = b.y1 ∧ d.x + d.w = b.x2 ∧ d.y + d.h = b.y2 := by
      simp only [pageDets, List.mem_append] at hd
      rcases hd with (hd | hd) | hd <;>
      · obtain ⟨b, hb, _, rfl⟩ := mem_yolo hd
        exact ⟨b, by simp [hb],
          by simp [detOfBox], by simp [detOfBox],
          by simp [detOfBox], by simp [detOfBox]⟩
    refine ⟨hsrc, ?_⟩
    obtain ⟨b, hb, hx, hy, hxw, hyh⟩ := hsrc
    obtain ⟨h1, h2, h3, h4, h5, h6⟩ := hboxes b hb
    refine ⟨?_, ?_, ?_, ?_⟩
    · rw [hx]; exact h1
    · rw [hy]; exact h2
    · rw [hxw]; exact h4
    · rw [hyh]; exact h6

/-- Witness for the amended C8 at a concrete input: one page whose single raw
box lies within the page; the hypotheses are discharged by computation. -/
theorem claim_C8_witness :
    (([{ index := 1, width := 100, height := 100,
         qrBoxes := [{ x1 := 5, y1 := 6, x2 := 30, y2 := 40, conf := 1 }],
         sigBoxes := [], stampBoxes := [] }] : List PageImage).map
        (fun p => p.index)).Nodup ∧
    (let p0 : PageImage :=
      { index := 1, width := 100, height := 100,
        qrBoxes := [{ x1 := 5, y1 := 6, x2 := 30, y2 := 40, conf := 1 }],
        sigBoxes := [], stampBoxes := [] };
    (p0.index, pageDets p0 (1/4)) ∈ run_inference_on_pages [p0] (1/4) ∧
    ∀ d ∈ pageDets p0 (1/4),
      (∃ b ∈ p0.qrBoxes ++ p0.sigBoxes ++ p0.stampBoxes,
          d.x = b.x1 ∧ d.y = b.y1 ∧ d.x + d.w = b.x2 ∧ d.y + d.h = b.y2) ∧
      0 ≤ d.x ∧ 0 ≤ d.y ∧ d.x + d.w ≤ (p0.width : Rat)
        ∧ d.y + d.h ≤ (p0.height : Rat)) :=
  ⟨by decide,
   claim_C8_amended _ (1/4) (by decide) _ (List.mem_singleton.mpr rfl)
     (by decide)⟩

/-- The character of one decimal digit. -/
def digitChar (d : Nat) : Char := Char.ofNat (48 + d)

/-- Little-endian decimal digits of `n`, with explicit structural fuel so
that the definition reduces in the kernel. -/
def digitsRev : Nat → Nat → List Nat
  | 0, _ => []
  | _ + 1, 0 => []
  | fuel + 1, n + 1 => (n + 1) % 10 :: digitsRev fuel ((n + 1) / 10)

/-- Valuation of a little-endian decimal digit list. -/
def digitsVal : List Nat → Nat
  | [] => 0
  | d :: tl => d + 10 * digitsVal tl

lemma digitsVal_digitsRev : ∀ fuel n, n ≤ fuel →
    digitsVal (digitsRev fuel n) = n := by
  intro fuel
  induction fuel with
  | zero =>
    intro n hn
    interval_cases n
    rfl
  | succ f ih =>
    intro n hn
    cases n with
    | zero => rfl
    | succ k =>
      have hdiv : (k + 1) / 10 ≤ f := by
        have := Nat.div_lt_self (Nat.succ_pos k) (by norm_num : (1 : Nat) < 10)
        omega
      simp only [digitsRev, digitsVal, ih ((k + 1) / 10) hdiv]
      omega

lemma digitsRev_lt : ∀ fuel n, ∀ d ∈ digitsRev fuel n, d < 10 := by
  intro fuel
  induction fuel with
  | zero => intro n d hd; simp [digitsRev] at hd
  | succ f ih =>
    intro n d hd
    cases n with
    | zero => simp [digitsRev] at hd
    | succ k =>
      simp only [digitsRev, List.mem_cons] at hd
      rcases hd with h | h
      · subst h
        exact Nat.mod_lt _ (by norm_num)
      · exact ih _ d h

/-- Decimal representation of a natural number, modelling Python's
`str(int)` / f-string formatting used for the `page_{i}` and
`annotation_{i}` payload keys. -/
def decimalRepr (n : Nat) : String :=
  if n = 0 then "0" else ⟨((digitsRev n n).reverse.map digitChar)⟩

lemma digitChar_inj_lt : ∀ d1, d1 < 10 → ∀ d2, d2 < 10 →
    digitChar d1 = digitChar d2 → d1 = d2 := by decide

lemma map_digitChar_inj : ∀ l1 l2 : List Nat, (∀ d ∈ l1, d < 10) →
    (∀ d ∈ l2, d < 10) → l1.map digitChar = l2.map digitChar → l1 = l2 := by
  intro l1
  induction l1 with
  | nil =>
    intro l2 _ _ h
    cases l2 with
    | nil => rfl
    | cons b tl => simp at h
  | cons a tl ih =>
    intro l2 h1 h2 h
    cases l2 with
    | nil => simp at h
    | cons b tl2 =>
      simp only [List.map_cons, List.cons.injEq] at h
      have ha : a = b :=
        digitChar_inj_lt a (h1 a (List.mem_cons_self a tl)) b
          (h2 b (List.mem_cons_self b tl2)) h.1
      have htl : tl = tl2 :=
        ih tl2 (fun d hd => h1 d (List.mem_cons_of_mem a hd))
          (fun d hd => h2 d (List.mem_cons_of_mem b hd)) h.2
      rw [ha, htl]

lemma decimalRepr_ne_zero {n : Nat} (hn : n ≠ 0) : decimalRepr n ≠ "0" := by
  intro h
  unfold decimalRepr at h
  rw [if_neg hn] at h
  have hdata := congrArg String.data h
  simp only [String.data] at hdata
  have hrev : (digitsRev n n).reverse = [0] := by
    apply map_digitChar_inj
    · intro d hd
      exact digitsRev_lt n n d (List.mem_reverse.mp hd)
    · intro d hd
      simp only [List.mem_singleton] at hd
      omega
    · simpa [digitChar] using hdata
  have hdig : digitsRev n n = [0] := by
    have := congrArg List.reverse hrev
    simpa using this
  have hval := digitsVal_digitsRev n n (le_refl n)
  rw [hdig] at hval
  simp [digitsVal] at hval
  exact hn hval.symm

lemma decimalRepr_injective : Function.Injective decimalRepr := by
  intro m n h
  by_cases hm : m = 0 <;> by_cases hn : n = 0
  · rw [hm, hn]
  · subst hm
    exact absurd h.symm (decimalRepr_ne_zero hn)
  · subst hn
    exact absurd h (decimalRepr_ne_zero hm)
  · unfold decimalRepr at h
    rw [if_neg hm, if_neg hn] at h
    have hdata := congrArg String.data h
    simp only [String.data] at hdata
    have hrev : (digitsRev m m).reverse = (digitsRev n n).reverse := by
      apply map_digitChar_inj
      · intro d hd
        exact digitsRev_lt m m d (List.mem_reverse.mp hd)
      · intro d hd
        exact digitsRev_lt n n d (List.mem_reverse.mp hd)
      · exact hdata
    have hdig : digitsRev m m = digitsRev n n := by
      have := congrArg List.reverse hrev
      simpa using this
    have h1 := digitsVal_digitsRev m m (le_refl m)
    have h2 := digitsVal_digitsRev n n (le_refl n)
    rw [← h1, ← h2, hdig]

lemma string_append_left_cancel {s t u : String} (h : s ++ t = s ++ u) :
    t = u := by
  have h2 := congrArg String.data h
  rw [String.data_append, String.data_append] at h2
  have h3 := List.append_cancel_left h2
  cases t
  cases u
  exact congrArg String.mk h3

/-- One annotation body of the challenge payload: category, bbox, area,
confidence, exactly the fields written by `build_challenge_json`. -/
structure AnnBody where
  category : Category
  x : Rat
  y : Rat
  width : Rat
  height : Rat
  area : Rat
  confidence : Rat
deriving DecidableEq

/-- One `page_<index>` entry of the challenge payload: the ordered list of
singleton `{annotation_<i>: body}` dicts and the `page_size`. -/
structure PageEntry where
  anns : List (String × AnnBody)
  width : Int
  height : Int
deriving DecidableEq

/-- The annotation body built from one `Detection`. -/
def annBodyOf (d : Detection) : AnnBody :=
  { category := d.category, x := d.x, y := d.y, width := d.w, height := d.h,
    area := d.area, confidence := d.confidence }

/-- Python `page_dets.get(page.index, [])`. -/
def detsFor (m : List (Nat × List Detection)) (i : Nat) : List Detection :=
  match m.find? (fun kv => kv.1 == i) with
  | some kv => kv.2
  | none => []

/-- The ordered annotation list of one page, with the document-global
counter `c` holding the number of annotations already emitted: the `i`-th
detection of the page (0-based) receives key `annotation_<c+i+1>`. -/
def annsFrom (c : Nat) (ds : List Detection) : List (String × AnnBody) :=
  ((List.range ds.length).zip ds).map
    (fun pr => ("annotation_" ++ decimalRepr (c + pr.1 + 1), annBodyOf pr.2))

/-- Embedding of `build_challenge_json`
(`modules/mark_service/formatters.py` lines 8-51): a single-key outer dict
`{pdf_name: {...}}`; pages are visited in list order, a document-global
`ann_id` counter numbers the annotations consecutively, and each page's
entry is stored under `page_<index>` with Python-dict assignment semantics. -/
def build_challenge_json (pdf_name : String) (pages : List PageImage)
    (page_dets : List (Nat × List Detection)) :
    String × List (String × PageEntry) :=
  let r := pages.foldl
    (fun (acc : Nat × List (String × PageEntry)) page =>
      (acc.1 + (detsFor page_dets page.index).length,
       dictSet acc.2 ("page_" ++ decimalRepr page.index)
         { anns := annsFrom acc.1 (detsFor page_dets page.index),
           width := page.width, height := page.height }))
    (0, [])
  (pdf_name, r.2)

/-- All annotation keys of a payload, visiting pages in payload order and
each page's annotation list in order. -/
def annKeys (payload : List (String × PageEntry)) : List String :=
  (payload.map (fun e => e.2.anns.map Prod.fst)).flatten

/-- Total number of detections over all pages, as looked up by
`build_challenge_json`. -/
def totalDets (pages : List PageImage)
    (m : List (Nat × List Detection)) : Nat :=
  (pages.map (fun p => (detsFor m p.index).length)).sum

/-- Specification of the page entries `build_challenge_json` produces when
all page keys are fresh: one entry per page in order, the annotation counter
advancing by the page's detection count. -/
def pagesEntries (m : List (Nat × List Detection)) (c : Nat) :
    List PageImage → List (String × PageEntry)
  | [] => []
  | p :: tl =>
    ("page_" ++ decimalRepr p.index,
     { anns := annsFrom c (detsFor m p.index), width := p.width,
       height := p.height })
      :: pagesEntries m (c + (detsFor m p.index).length) tl

lemma annsFrom_keys (c : Nat) (ds : List Detection) :
    (annsFrom c ds).map Prod.fst
      = (List.range ds.length).map
          (fun i => "annotation_" ++ decimalRepr (c + i + 1)) := by
  unfold annsFrom
  rw [List.map_map]
  have hfst : ((List.range ds.length).zip ds).map Prod.fst
      = List.range ds.length :=
    List.map_fst_zip _ _ (by simp)
  have hcomp : ((List.range ds.length).zip ds).map
      (Prod.fst ∘ fun pr =>
        ("annotation_" ++ decimalRepr (c + pr.1 + 1), annBodyOf pr.2))
      = ((List.range ds.length).zip ds).map
        ((fun i => "annotation_" ++ decimalRepr (c + i + 1)) ∘ Prod.fst) := by
    apply List.map_congr_left
    intro pr _
    rfl
  rw [hcomp, ← List.map_map, hfst]

lemma totalDets_cons (m : List (Nat × List Detection)) (p : PageImage)
    (tl : List PageImage) :
    totalDets (p :: tl) m = (detsFor m p.index).length + totalDets tl m := by
  simp [totalDets]

lemma annKeys_pagesEntries (m : List (Nat × List Detection)) :
    ∀ (pages : List PageImage) (c : Nat),
    annKeys (pagesEntries m c pages)
      = (List.range (totalDets pages m)).map
          (fun i => "annotation_" ++ decimalRepr (c + i + 1)) := by
  intro pages
  induction pages with
  | nil => intro c; simp [annKeys, pagesEntries, totalDets]
  | cons p tl ih =>
    intro c
    rw [totalDets_cons, List.range_add, List.map_append, List.map_map]
    simp only [annKeys, pagesEntries, List.map_cons, List.flatten_cons]
    rw [annsFrom_keys]
    have h2 := ih (c + (detsFor m p.index).length)
    simp only [annKeys] at h2
    rw [h2]
    congr 1
    apply List.map_congr_left
    intro i _
    have : c + ((detsFor m p.index).length + i) + 1
        = c + (detsFor m p.index).length + i + 1 := by omega
    simp [Function.comp, this]

lemma keys_pagesEntries (m : List (Nat × List Detection)) :
    ∀ (pages : List PageImage) (c : Nat),
    (pagesEntries m c pages).map Prod.fst
      = pages.map (fun p => "page_" ++ decimalRepr p.index) := by
  intro pages
  induction pages with
  | nil => intro c; rfl
  | cons p tl ih =>
    intro c
    simp only [pagesEntries, List.map_cons]
    rw [ih]

lemma buildFold_eq (m : List (Nat × List Detection)) :
    ∀ (pages : List PageImage) (c : Nat)
      (acc : List (String × PageEntry)),
    (∀ e ∈ acc, ∀ p ∈ pages, e.1 ≠ "page_" ++ decimalRepr p.index) →
    ((pages.map (fun p => p.index)).Nodup) →
    pages.foldl
      (fun (acc : Nat × List (String × PageEntry)) page =>
        (acc.1 + (detsFor m page.index).length,
         dictSet acc.2 ("page_" ++ decimalRepr page.index)
           { anns := annsFrom acc.1 (detsFor m page.index),
             width := page.width, height := page.height }))
      (c, acc)
      = (c + totalDets pages m, acc ++ pagesEntries m c pages) := by
  intro pages
  induction pages with
  | nil =>
    intro c acc _ _
    simp [totalDets, pagesEntries]
  | cons p tl ih =>
    intro c acc hacc hnd
    simp only [List.map_cons, List.nodup_cons] at hnd
    rw [List.foldl_cons]
    rw [dictSet_fresh _ _ _
      (fun kv hkv => hacc kv hkv p (List.mem_cons_self p tl))]
    have hfresh : ∀ e ∈ acc ++ [("page_" ++ decimalRepr p.index,
        ({ anns := annsFrom c (detsFor m p.index), width := p.width,
           height := p.height } : PageEntry))], ∀ q ∈ tl,
        e.1 ≠ "page_" ++ decimalRepr q.index := by
      intro e he q hq
      rcases List.mem_append.mp he with h | h
      · exact hacc e h q (List.mem_cons_of_mem p hq)
      · simp only [List.mem_singleton] at h
        subst h
        intro hkey
        have h1 : decimalRepr p.index = decimalRepr q.index :=
          string_append_left_cancel hkey
        have h2 : p.index = q.index := decimalRepr_injective h1
        apply hnd.1
        rw [h2]
        exact List.mem_map_of_mem (fun p => p.index) hq
    rw [ih (c + (detsFor m p.index).length) _ hfresh hnd.2]
    simp only [pagesEntries, totalDets_cons]
    rw [Nat.add_assoc, List.append_assoc, List.singleton_append]

lemma build_challenge_json_eq (name : String) (pages : List PageImage)
    (m : List (Nat × List Detection))
    (hnd : (pages.map (fun p => p.index)).Nodup) :
    (build_challenge_json name pages m).2 = pagesEntries m 0 pages := by
  unfold build_challenge_json
  rw [buildFold_eq m pages 0 [] (by simp) hnd]
  simp

/-- Claim C10: `build_challenge_json` numbers annotations with one
document-global counter — visiting pages in list order and each page's
detections in list order, the annotation keys are
`annotation_1, annotation_2, ...` consecutively across the whole document —
so every annotation key of the payload is unique and the number of
annotation entries equals the total number of detections over all pages;
moreover the payload has one `page_<index>` entry per page, in page order.
Page indices are assumed pairwise distinct, which `pdf_to_images`
guarantees. -/
theorem claim_C10_annotation_numbering (name : String)
    (pages : List PageImage) (m : List (Nat × List Detection))
    (hnd : (pages.map (fun p => p.index)).Nodup) :
    annKeys (build_challenge_json name pages m).2
      = (List.range (totalDets pages m)).map
          (fun i => "annotation_" ++ decimalRepr (i + 1)) ∧
    (annKeys (build_challenge_json name pages m).2).Nodup ∧
    (annKeys (build_challenge_json name pages m).2).length
      = totalDets pages m ∧
    (build_challenge_json name pages m).2.map Prod.fst
      = pages.map (fun p => "page_" ++ decimalRepr p.index) := by
  have hb := build_challenge_json_eq name pages m hnd
  have hkeys : annKeys (build_challenge_json name pages m).2
      = (List.range (totalDets pages m)).map
          (fun i => "annotation_" ++ decimalRepr (i + 1)) := by
    rw [hb, annKeys_pagesEntries]
    apply List.map_congr_left
    intro i _
    rw [Nat.zero_add]
  refine ⟨hkeys, ?_, ?_, ?_⟩
  · rw [hkeys]
    apply List.Nodup.map ?_ (List.nodup_range _)
    intro a b hab
    have h1 : decimalRepr (a + 1) = decimalRepr (b + 1) :=
      string_append_left_cancel hab
    have h2 := decimalRepr_injective h1
    omega
  · rw [hkeys]
    simp
  · rw [hb, keys_pagesEntries]

/-- Concrete payload input for the C10 witness: two pages with indices 1 and
2; page 1 carries two detections, page 2 one. -/
def pagesW10 : List PageImage :=
  [{ index := 1, width := 100, height := 200, qrBoxes := [], sigBoxes := [],
     stampBoxes := [] },
   { index := 2, width := 100, height := 200, qrBoxes := [], sigBoxes := [],
     stampBoxes := [] }]

/-- Concrete detection map for the C10 witness. -/
def detsW10 : List (Nat × List Detection) :=
  [(1, [{ category := Category.qr, x := 1, y := 2, w := 3, h := 4,
          area := 12, confidence := 1 },
        { category := Category.stamp, x := 5, y := 6, w := 7, h := 8,
          area := 56, confidence := 1 }]),
   (2, [{ category := Category.signature, x := 0, y := 0, w := 2, h := 2,
          area := 4, confidence := 1 }])]

/-- Witness for C10 at a concrete input: distinct page indices hold and the
conclusion evaluates. -/
theorem claim_C10_witness :
    (pagesW10.map (fun p => p.index)).Nodup ∧
    (annKeys (build_challenge_json "f.pdf" pagesW10 detsW10).2
      = (List.range (totalDets pagesW10 detsW10)).map
          (fun i => "annotation_" ++ decimalRepr (i + 1)) ∧
    (annKeys (build_challenge_json "f.pdf" pagesW10 detsW10).2).Nodup ∧
    (annKeys (build_challenge_json "f.pdf" pagesW10 detsW10).2).length
      = totalDets pagesW10 detsW10 ∧
    (build_challenge_json "f.pdf" pagesW10 detsW10).2.map Prod.fst
      = pagesW10.map (fun p => "page_" ++ decimalRepr p.index)) :=
  ⟨by decide,
   claim_C10_annotation_numbering "f.pdf" pagesW10 detsW10 (by decide)⟩

/-- One member of a ZIP archive: entry name and opaque byte content. -/
structure ZipEntry where
  name : String
  data : String
deriving DecidableEq

/-- One uploaded file: `UploadFile.filename` (absent for anonymous parts)
and its bytes; `asZip` is the member list obtained when the bytes are opened
as a ZIP archive, `none` when `zipfile.ZipFile` would raise `BadZipFile`. -/
structure Upload where
  filename : Option String
  data : String
  asZip : Option (List ZipEntry)
deriving DecidableEq

/-- Python `str.lower`, for the ASCII names appearing here. -/
def pyLower (s : String) : String := ⟨s.data.map Char.toLower⟩

/-- Python `str.endswith`. -/
def pyEndsWith (s suffix : String) : Bool :=
  List.isSuffixOf suffix.data s.data

/-- Python `str.split('/')` on the character list. -/
def splitSlash (cs : List Char) : List (List Char) :=
  cs.foldr
    (fun c acc =>
      if c = '/' then [] :: acc
      else (c :: acc.headD []) :: acc.tail)
    [[]]

/-- Python `pathlib.Path(name).name`: the last slash-separated component
(for the ordinary member and file names that occur here). -/
def basename (s : String) : String := ⟨(splitSlash s.data).getLastD []⟩

/-- Embedding of `_collect_pdfs_from_zip` (`modules/sessions/service.py`
lines 14-20): keep exactly the members whose lowercased name ends in
`.pdf`, in archive order, paired as `(Path(name).name, bytes)`. -/
def _collect_pdfs_from_zip (entries : List ZipEntry) :
    List (String × String) :=
  entries.filterMap fun e =>
    if pyEndsWith (pyLower e.name) ".pdf" then some (basename e.name, e.data)
    else none

/-- Intake failures: `HTTPException(400)` validation errors, and the
unhandled `BadZipFile` escaping `zipfile.ZipFile` on a corrupt `.zip`
(a server error, not a 400). -/
inductive IntakeError
  | validation (msg : String)
  | badZip
deriving DecidableEq

/-- The classification loop of `create_session_with_documents`
(`modules/sessions/service.py` lines 27-36): per file, a lowercased
`.zip` suffix expands the archive, a lowercased `.pdf` suffix is used
directly, anything else (including a missing filename) is skipped;
`none` models a `BadZipFile` escaping. -/
def collect_pdf_blobs (files : List Upload) :
    Option (List (String × String)) :=
  files.foldl
    (fun acc f =>
      acc.bind fun l =>
        match f.filename with
        | some nm =>
          if pyEndsWith (pyLower nm) ".zip" then
            match f.asZip with
            | some entries => some (l ++ _collect_pdfs_from_zip entries)
            | none => none
          else if pyEndsWith (pyLower nm) ".pdf" then
            some (l ++ [(basename nm, f.data)])
          else some l
        | none => some l)
    (some [])

/-- The `Session` row as created by intake. -/
structure SessionRec where
  id : Nat
  status : SessionStatus
  documentsCount : Nat
deriving DecidableEq

/-- The `SessionDocument` row as created by intake. -/
structure DocRec where
  id : Nat
  sessionId : Nat
  originalName : String
  status : DocStatus
deriving DecidableEq

/-- Embedding of `create_session_with_documents`
(`modules/sessions/service.py` lines 23-68): 400 on an empty upload list,
400 on zero resulting PDFs, otherwise one `Session` row with status
PROCESSING and `documentsCount = len(pdf_blobs)` plus one PENDING
`SessionDocument` row per blob (database-assigned ids modelled as
`1..N`). -/
def create_session_with_documents (files : List Upload) (sessionId : Nat) :
    Except IntakeError (SessionRec × List DocRec) :=
  if files.isEmpty then
    Except.error (IntakeError.validation "No files provided")
  else
    match collect_pdf_blobs files with
    | none => Except.error IntakeError.badZip
    | some blobs =>
      if blobs.isEmpty then
        Except.error (IntakeError.validation "No PDFs found in upload")
      else
        Except.ok
          ({ id := sessionId, status := SessionStatus.PROCESSING,
             documentsCount := blobs.length },
           ((List.range blobs.length).zip blobs).map
             (fun pr =>
               { id := pr.1 + 1, sessionId := sessionId,
                 originalName := pr.2.1, status := DocStatus.PENDING }))

/-- The claimed per-file classification, composed over the upload list. -/
def pdfsOf (files : List Upload) : List (String × String) :=
  files.flatMap fun f =>
    match f.filename with
    | some nm =>
      if pyEndsWith (pyLower nm) ".zip" then
        _collect_pdfs_from_zip (f.asZip.getD [])
      else if pyEndsWith (pyLower nm) ".pdf" then [(basename nm, f.data)]
      else []
    | none => []

/-- Whether a `.zip`-named upload actually opens as an archive. -/
def zipOk (f : Upload) : Bool :=
  match f.filename with
  | some nm =>
    if pyEndsWith (pyLower nm) ".zip" then f.asZip.isSome else true
  | none => true

lemma collect_pdf_blobs_eq :
    ∀ (files : List Upload) (l : List (String × String)),
    files.all zipOk = true →
    files.foldl
      (fun acc f =>
        acc.bind fun l =>
          match f.filename with
          | some nm =>
            if pyEndsWith (pyLower nm) ".zip" then
              match f.asZip with
              | some entries => some (l ++ _collect_pdfs_from_zip entries)
              | none => none
            else if pyEndsWith (pyLower nm) ".pdf" then
              some (l ++ [(basename nm, f.data)])
            else some l
          | none => some l)
      (some l)
      = some (l ++ pdfsOf files) := by
  intro files
  induction files with
  | nil => intro l _; simp [pdfsOf]
  | cons f tl ih =>
    intro l hz
    simp only [List.all_cons, Bool.and_eq_true] at hz
    rw [List.foldl_cons]
    have hstep :
        (some l).bind (fun l =>
          match f.filename with
          | some nm =>
            if pyEndsWith (pyLower nm) ".zip" then
              match f.asZip with
              | some entries => some (l ++ _collect_pdfs_from_zip entries)
              | none => none
            else if pyEndsWith (pyLower nm) ".pdf" then
              some (l ++ [(basename nm, f.data)])
            else some l
          | none => some l)
        = some (l ++ (match f.filename with
            | some nm =>
              if pyEndsWith (pyLower nm) ".zip" then
                _collect_pdfs_from_zip (f.asZip.getD [])
              else if pyEndsWith (pyLower nm) ".pdf" then
                [(basename nm, f.data)]
              else []
            | none => [])) := by
      cases hf : f.filename with
      | none => simp
      | some nm =>
        by_cases hzip : pyEndsWith (pyLower nm) ".zip"
        · have hsome : f.asZip.isSome = true := by
            have := hz.1
            unfold zipOk at this
            rw [hf] at this
            simpa [hzip] using this
          obtain ⟨entries, he⟩ := Option.isSome_iff_exists.mp hsome
          simp [hzip, he]
        · by_cases hpdf : pyEndsWith (pyLower nm) ".pdf"
          · simp [hzip, hpdf]
          · simp [hzip, hpdf]
    rw [hstep, ih _ hz.2]
    simp [pdfsOf, List.append_assoc]

/-- Claim C5: intake classifies each upload by name suffix (`.zip` expands,
keeping members whose lowercased name ends in `.pdf`; `.pdf` is used
directly; anything else is discarded); zero resulting PDFs fail with a
ValidationError (400) and create nothing, and otherwise exactly one Session
with status PROCESSING and `documentsCount = N` is created together with
exactly `N` PENDING Document rows carrying the classified names.  Every
`.zip`-named upload is assumed to open as an archive (a corrupt archive
raises `BadZipFile` before any classification, outside the claim). -/
theorem claim_C5_intake (files : List Upload) (sid : Nat)
    (hz : files.all zipOk = true) :
    collect_pdf_blobs files = some (pdfsOf files) ∧
    (pdfsOf files = [] →
      ∃ msg, create_session_with_documents files sid
        = Except.error (IntakeError.validation msg)) ∧
    (pdfsOf files ≠ [] →
      ∃ sess docs,
        create_session_with_documents files sid = Except.ok (sess, docs) ∧
        sess.status = SessionStatus.PROCESSING ∧
        sess.documentsCount = (pdfsOf files).length ∧
        docs.length = (pdfsOf files).length ∧
        (∀ d ∈ docs, d.status = DocStatus.PENDING ∧ d.sessionId = sid) ∧
        docs.map (fun d => d.originalName) = (pdfsOf files).map Prod.fst) := by
  have hcoll : collect_pdf_blobs files = some (pdfsOf files) := by
    unfold collect_pdf_blobs
    simpa using collect_pdf_blobs_eq files [] hz
  refine ⟨hcoll, ?_, ?_⟩
  · intro hempty
    unfold create_session_with_documents
    by_cases hf : files.isEmpty
    · exact ⟨"No files provided", by rw [if_pos hf]⟩
    · refine ⟨"No PDFs found in upload", ?_⟩
      rw [if_neg hf, hcoll]
      simp [hempty]
  · intro hne
    have hf : files.isEmpty = false := by
      cases files with
      | nil => exact absurd rfl hne
      | cons a tl => rfl
    unfold create_session_with_documents
    rw [hf, hcoll]
    simp only [Bool.false_eq_true, if_false]
    rw [if_neg (by simpa using hne)]
    refine ⟨_, _, rfl, rfl, rfl, ?_, ?_, ?_⟩
    · rw [List.length_map, List.length_zip, List.length_range]
      omega
    · intro d hd
      obtain ⟨pr, _, rfl⟩ := List.mem_map.mp hd
      exact ⟨rfl, rfl⟩
    · rw [List.map_map]
      have h1 : ((List.range (pdfsOf files).length).zip (pdfsOf files)).map
          ((fun d : DocRec => d.originalName) ∘ fun pr =>
            ({ id := pr.1 + 1, sessionId := sid, originalName := pr.2.1,
               status := DocStatus.PENDING } : DocRec))
          = ((List.range (pdfsOf files).length).zip (pdfsOf files)).map
            (Prod.fst ∘ Prod.snd) := by
        apply List.map_congr_left
        intro pr _
        rfl
      rw [h1, ← List.map_map, List.map_snd_zip]
      simp

/-- Concrete upload list for the C5 witness: a ZIP holding one PDF (upper
case suffix) and one text file, a direct PDF, a discarded `.docx`, and an
anonymous part. -/
def filesW5 : List Upload :=
  [{ filename := some "Batch.ZIP", data := "zipbytes",
     asZip := some [{ name := "docs/Doc1.PDF", data := "d1" },
                    { name := "readme.txt", data := "t" }] },
   { filename := some "b.pdf", data := "d2", asZip := none },
   { filename := some "c.docx", data := "d3", asZip := none },
   { filename := none, data := "d4", asZip := none }]

/-- Witness for C5 at a concrete input: the archive hypothesis holds and the
intake produces one PROCESSING session with two PENDING documents. -/
theorem claim_C5_witness :
    filesW5.all zipOk = true ∧
    (collect_pdf_blobs filesW5 = some (pdfsOf filesW5) ∧
    (pdfsOf filesW5 = [] →
      ∃ msg, create_session_with_documents filesW5 42
        = Except.error (IntakeError.validation msg)) ∧
    (pdfsOf filesW5 ≠ [] →
      ∃ sess docs,
        create_session_with_documents filesW5 42 = Except.ok (sess, docs) ∧
        sess.status = SessionStatus.PROCESSING ∧
        sess.documentsCount = (pdfsOf filesW5).length ∧
        docs.length = (pdfsOf filesW5).length ∧
        (∀ d ∈ docs, d.status = DocStatus.PENDING ∧ d.sessionId = 42) ∧
        docs.map (fun d => d.originalName)
          = (pdfsOf filesW5).map Prod.fst)) :=
  ⟨by decide, claim_C5_intake filesW5 42 (by decide)⟩

/-- Python `str.strip()`: drop leading and trailing whitespace. -/
def pyStrip (cs : List Char) : List Char :=
  ((cs.dropWhile Char.isWhitespace).reverse.dropWhile Char.isWhitespace).reverse

/-- Python `int(s)` on a string: optional surrounding whitespace, an
optional sign, then one or more decimal digits (Python additionally accepts
underscore digit grouping and non-ASCII digits; irrelevant to the ids
appearing here).  `none` models a `ValueError`. -/
def pyIntOfString (s : String) : Option Int :=
  let core : List Char → Option Int := fun ds =>
    if ds.isEmpty then none
    else if ds.all Char.isDigit then
      some (Int.ofNat (ds.foldl (fun a c => 10 * a + (c.toNat - 48)) 0))
    else none
  match pyStrip s.data with
  | '-' :: rest => (core rest).map (fun n => -n)
  | '+' :: rest => core rest
  | cs => core cs

/-- Python `s.split('/')[-1]`. -/
def lastSegment (s : String) : String := ⟨(splitSlash s.data).getLastD []⟩

/-- Python `str(n)` for an integer. -/
def intRepr (n : Int) : String :=
  if n < 0 then "-" ++ decimalRepr n.natAbs else decimalRepr n.natAbs

/-- The fields of the LLM analysis result dict. -/
structure LlmOut where
  fraudSentences : List String
  mistakeWords : List String
  documentType : String
  documentSummary : String
deriving DecidableEq

/-- A `DocumentAnalysis` row (fields relevant to the claims). -/
structure AnalysisRecord where
  documentId : String
  status : AnalysisStatus
  errorLog : Option String
  results : Option LlmOut
  documentText : Option String
deriving DecidableEq

/-- Outcomes of the external steps of `DocumentAnalysisService
.analyze_document`: the database create/update calls, the S3 download, the
OCR call and the LLM call. -/
structure AnalysisEnv where
  createOk : Bool
  download : Except String Unit
  ocr : Except String String
  llm : Except String LlmOut
  completeUpdateOk : Bool
  failedUpdateOk : Bool

/-- Embedding of `_update_failed_status`
(`modules/document_analysis/document_analysis_service.py` lines 178-191):
set status FAILED and the error log; a failure of this update itself is
logged and swallowed (`ok = false` leaves the row unchanged and raises
nothing). -/
def updateFailed (ok : Bool) (r : AnalysisRecord) (msg : String) :
    AnalysisRecord :=
  if ok then { r with status := AnalysisStatus.FAILED, errorLog := some msg }
  else r

/-- Embedding of `DocumentAnalysisService.analyze_document`
(`modules/document_analysis/document_analysis_service.py` lines 21-128):
normalize the id (`int(str(document_id).split('/')[-1])`, else raise
`Invalid document id`), create the PROCESSING row keyed by the numeric
string, then download / OCR / LLM — recording any step failure on the row
via `_update_failed_status` (applied a second time by the outer handler with
the same message) and re-raising — and finally update the row to COMPLETED
with the results.  Returns the final state of the row (`none` when it was
never created) and the Python return/raise outcome. -/
def analyze_document (env : AnalysisEnv) (document_id : String) :
    Option AnalysisRecord × Except String LlmOut :=
  match pyIntOfString (lastSegment document_id) with
  | none => (none, Except.error ("Invalid document id: " ++ document_id))
  | some n =>
    if env.createOk then
      let rec0 : AnalysisRecord :=
        { documentId := intRepr n, status := AnalysisStatus.PROCESSING,
          errorLog := none, results := none, documentText := none }
      match env.download with
      | Except.error e =>
        (some (updateFailed env.failedUpdateOk
            (updateFailed env.failedUpdateOk rec0
              ("Failed to download PDF: " ++ e))
            ("Failed to download PDF: " ++ e)),
         Except.error ("Failed to download PDF: " ++ e))
      | Except.ok _ =>
        match env.ocr with
        | Except.error e =>
          (some (updateFailed env.failedUpdateOk
              (updateFailed env.failedUpdateOk rec0
                ("Failed to extract text from PDF: " ++ e))
              ("Failed to extract text from PDF: " ++ e)),
           Except.error ("Failed to extract text from PDF: " ++ e))
        | Except.ok text =>
          match env.llm with
          | Except.error e =>
            (some (updateFailed env.failedUpdateOk
                (updateFailed env.failedUpdateOk rec0
                  ("Failed to analyze text with LLM: " ++ e))
                ("Failed to analyze text with LLM: " ++ e)),
             Except.error ("Failed to analyze text with LLM: " ++ e))
          | Except.ok out =>
            if env.completeUpdateOk then
              (some { documentId := intRepr n,
                      status := AnalysisStatus.COMPLETED, errorLog := none,
                      results := some out, documentText := some text },
               Except.ok out)
            else
              (some (updateFailed env.failedUpdateOk rec0
                  "database update failed"),
               Except.error "database update failed")
    else
      (none, Except.error "database create failed")

/-- The lookup key of `get_analysis_status`
(`modules/document_analysis/document_analysis_service.py` lines 144-148):
the numeric string of the id's final segment when it parses as an integer,
otherwise the id itself (legacy fallback — no error is raised). -/
def statusLookupKey (document_id : String) : String :=
  match pyIntOfString (lastSegment document_id) with
  | some n => intRepr n
  | none => document_id

/-- The response shapes of `get_analysis_status`. -/
inductive StatusResult
  | notFound
  | processing (documentId : String)
  | completed (documentId : String) (results : Option LlmOut)
  | failed (documentId : String) (errorLog : Option String)
deriving DecidableEq

/-- Embedding of `DocumentAnalysisService.get_analysis_status`
(`modules/document_analysis/document_analysis_service.py` lines 130-176):
normalize the key with fallback, look the row up by `documentId`, and
return NOT_FOUND / PROCESSING / COMPLETED(+results) / FAILED(+errorLog). -/
def get_analysis_status (recs : List AnalysisRecord)
    (document_id : String) : StatusResult :=
  match recs.find? (fun a => a.documentId == statusLookupKey document_id) with
  | none => StatusResult.notFound
  | some a =>
    match a.status with
    | AnalysisStatus.PROCESSING => StatusResult.processing a.documentId
    | AnalysisStatus.COMPLETED => StatusResult.completed a.documentId a.results
    | AnalysisStatus.FAILED => StatusResult.failed a.documentId a.errorLog

lemma updateFailed_documentId (ok : Bool) (r : AnalysisRecord)
    (msg : String) : (updateFailed ok r msg).documentId = r.documentId := by
  unfold updateFailed
  split <;> rfl

/-- Counterexample to claim C9 as stated: the status query does not fail
with an InvalidIdError on an id whose final segment is not an integer — it
falls back to the raw id as lookup key and answers normally (here, a
PROCESSING response, and NOT_FOUND on an empty table). -/
theorem claim_C9_counterexample :
    pyIntOfString (lastSegment "abc") = none ∧
    get_analysis_status
      [{ documentId := "abc", status := AnalysisStatus.PROCESSING,
         errorLog := none, results := none, documentText := none }] "abc"
      = StatusResult.processing "abc" ∧
    get_analysis_status [] "abc" = StatusResult.notFound := by
  refine ⟨by decide, by decide, by decide⟩

/-- Claim C9 amended: for `analyze_document`, an id whose final segment
parses as an integer is normalized to that integer key (the created
`DocumentAnalysis` row is keyed by its decimal string) and any other id
fails with `Invalid document id`; the status query normalizes parseable ids
the same way but uses any other id verbatim as the lookup key instead of
failing. -/
theorem claim_C9_id_normalization :
    (∀ (id : String) (n : Int),
      pyIntOfString (lastSegment id) = some n →
      statusLookupKey id = intRepr n ∧
      (∀ (env : AnalysisEnv) (r : AnalysisRecord),
        (analyze_document env id).1 = some r → r.documentId = intRepr n) ∧
      (∀ env : AnalysisEnv, env.createOk = true →
        ∃ r, (analyze_document env id).1 = some r)) ∧
    (∀ id : String,
      pyIntOfString (lastSegment id) = none →
      (∀ env : AnalysisEnv,
        analyze_document env id
          = (none, Except.error ("Invalid document id: " ++ id))) ∧
      statusLookupKey id = id) := by
  constructor
  · intro id n h
    refine ⟨?_, ?_, ?_⟩
    · unfold statusLookupKey
      rw [h]
    · intro env r hr
      unfold analyze_document at hr
      rw [h] at hr
      cases hc : env.createOk with
      | false =>
        rw [hc] at hr
        simp only [Bool.false_eq_true, if_false] at hr
        exact absurd hr (by simp)
      | true =>
        rw [hc] at hr
        simp only [if_true] at hr
        cases hdl : env.download with
        | error e =>
          rw [hdl] at hr
          simp only [Option.some.injEq] at hr
          rw [← hr, updateFailed_documentId, updateFailed_documentId]
        | ok u =>
          rw [hdl] at hr
          cases hocr : env.ocr with
          | error e =>
            rw [hocr] at hr
            simp only [Option.some.injEq] at hr
            rw [← hr, updateFailed_documentId, updateFailed_documentId]
          | ok text =>
            rw [hocr] at hr
            cases hllm : env.llm with
            | error e =>
              rw [hllm] at hr
              simp only [Option.some.injEq] at hr
              rw [← hr, updateFailed_documentId, updateFailed_documentId]
            | ok out =>
              rw [hllm] at hr
              cases hu : env.completeUpdateOk with
              | true =>
                rw [hu] at hr
                simp only [if_true, Option.some.injEq] at hr
                rw [← hr]
              | false =>
                rw [hu] at hr
                simp only [Bool.false_eq_true, if_false,
                  Option.some.injEq] at hr
                rw [← hr, updateFailed_documentId]
    · intro env hc
      unfold analyze_document
      rw [h, hc]
      simp only [if_true]
      cases env.download with
      | error e => exact ⟨_, rfl⟩
      | ok u =>
        cases env.ocr with
        | error e => exact ⟨_, rfl⟩
        | ok text =>
          cases env.llm with
          | error e => exact ⟨_, rfl⟩
          | ok out =>
            cases hu : env.completeUpdateOk with
            | true =>
              simp only [if_true]
              exact ⟨_, rfl⟩
            | false =>
              simp only [Bool.false_eq_true, if_false]
              exact ⟨_, rfl⟩
  · intro id h
    constructor
    · intro env
      unfold analyze_document
      rw [h]
    · unfold statusLookupKey
      rw [h]

/-- Witness for the amended C9 at concrete inputs: a slash-delimited id with
integer final segment on the accepting side, a non-integer id on the
rejecting side. -/
theorem claim_C9_witness :
    (statusLookupKey "sessions/9/documents/12" = intRepr 12 ∧
      (∀ (env : AnalysisEnv) (r : AnalysisRecord),
        (analyze_document env "sessions/9/documents/12").1 = some r →
          r.documentId = intRepr 12) ∧
      (∀ env : AnalysisEnv, env.createOk = true →
        ∃ r, (analyze_document env "sessions/9/documents/12").1 = some r)) ∧
    ((∀ env : AnalysisEnv,
        analyze_document env "abc"
          = (none, Except.error ("Invalid document id: " ++ "abc"))) ∧
      statusLookupKey "abc" = "abc") :=
  ⟨claim_C9_id_normalization.1 "sessions/9/documents/12" 12 (by decide),
   claim_C9_id_normalization.2 "abc" (by decide)⟩

/-- Models the statement at `modules/sessions/processors.py` line 62,
`await document_analysis_service.analyze_document(document_id)`.  The called
method (`modules/document_analysis/document_analysis_service.py` line 21)
has signature `analyze_document(self, session_id, document_id)`; the call
site supplies only one positional argument, so Python raises a `TypeError`
for the missing `document_id` parameter before the method body runs: no
`DocumentAnalysis` row is created and no failure is recorded there.  The
`try/except` around the call (lines 61-65) catches and logs the error. -/
def analysisCallAtSite : Option AnalysisRecord × Except String LlmOut :=
  (none,
   Except.error
     "TypeError: analyze_document() missing 1 required positional argument")

/-- Outcomes of the external steps of one `process_document_async` run: the
rasterizer, the S3 uploads, the YOLO inference, the database reads/writes,
and the state of the session's other documents at aggregation time. -/
structure ProcEnv where
  pages : List PageImage
  rasterOk : Bool
  uploadOriginalOk : Bool
  uploadPagesOk : Bool
  inferenceOk : Bool
  labeledUploadsOk : Bool
  findDocOk : Bool
  persistOk : Bool
  countOk : Bool
  sessUpdateOk : Bool
  markFailedOk : Bool
  otherDocs : List DocStatus
  documentsCount : Nat
deriving DecidableEq

/-- Observable outcome of one `process_document_async` run: the successful
writes to this document's `status` column in order, the writes to the
session's `status`, the final `DocumentAnalysis` row of the isolated
sub-pipeline, the persisted flag triple, whether the failure handler
attempted the FAILED write, whether local cleanup was attempted, whether the
post-success session aggregation was entered, and whether an exception
escaped the task. -/
structure RunResult where
  docWrites : List DocStatus
  sessionWrites : List SessionStatus
  analysisRecord : Option AnalysisRecord
  persistedFlags : Option (Bool × Bool × Bool)
  failedWriteAttempted : Bool
  cleanupAttempted : Bool
  aggregationEntered : Bool
  raised : Bool
deriving DecidableEq

/-- The flag triple one run computes from its pages (threshold 0.25). -/
def runFlags (env : ProcEnv) : Bool × Bool × Bool :=
  computeFlags (run_inference_on_pages env.pages (1/4))

/-- Outcome of a failure before the analysis call: the handler attempts the
FAILED write (landing iff the write succeeds), attempts cleanup, re-raises
nothing. -/
def failBeforeR (env : ProcEnv) : RunResult :=
  { docWrites := if env.markFailedOk then [DocStatus.FAILED] else []
    sessionWrites := []
    analysisRecord := none
    persistedFlags := none
    failedWriteAttempted := true
    cleanupAttempted := true
    aggregationEntered := false
    raised := false }

/-- Outcome of a failure after the analysis call (whose record is the `none`
of `analysisCallAtSite`). -/
def failMidR (env : ProcEnv) : RunResult :=
  { failBeforeR env with analysisRecord := analysisCallAtSite.1 }

/-- State after the SUCCESSFUL update, cleanup and entry into session
aggregation. -/
def baseR (env : ProcEnv) : RunResult :=
  { docWrites := [DocStatus.SUCCESSFUL]
    sessionWrites := []
    analysisRecord := analysisCallAtSite.1
    persistedFlags := some (runFlags env)
    failedWriteAttempted := false
    cleanupAttempted := true
    aggregationEntered := true
    raised := false }

/-- Outcome of a failure after the SUCCESSFUL update: the handler appends a
FAILED write when that write succeeds. -/
def failAfterR (env : ProcEnv) : RunResult :=
  { baseR env with
    docWrites := (baseR env).docWrites
      ++ (if env.markFailedOk then [DocStatus.FAILED] else [])
    failedWriteAttempted := true }

/-- Embedding of the body of `process_document_async`
(`modules/sessions/processors.py` lines 31-179): the `try/except` that runs
after `await db.connect()` (line 30) has succeeded, and before the `finally`
of line 180 runs `await db.disconnect()` — those two fallible calls are
modelled in `process_document_task` below.  Step order: rasterize, upload
original, upload raw pages, isolated analysis call (always a caught
`TypeError`, see `analysisCallAtSite`), inference, labeled images/PDF and
their uploads, `find_unique` of the document row, the SUCCESSFUL update,
local cleanup, then session aggregation (count queries and conditional
SUCCESS update).  Any step failure jumps to the single `except` block:
best-effort FAILED write (swallowed on failure), best-effort cleanup, no
re-raise. -/
def process_document_async (env : ProcEnv) : RunResult :=
  if env.rasterOk = false then failBeforeR env
  else if env.uploadOriginalOk = false then failBeforeR env
  else if env.uploadPagesOk = false then failBeforeR env
  else if env.inferenceOk = false then failMidR env
  else if env.labeledUploadsOk = false then failMidR env
  else if env.findDocOk = false then failMidR env
  else if env.persistOk = false then failMidR env
  else if env.countOk = false then failAfterR env
  else if 0 < env.otherDocs.length + 1
      ∧ env.otherDocs.countP (fun s => s = DocStatus.SUCCESSFUL) + 1
        = env.otherDocs.length + 1 then
    if env.sessUpdateOk = false then failAfterR env
    else { baseR env with sessionWrites := [SessionStatus.SUCCESS] }
  else baseR env

/-- Whether some pipeline step outside the isolated analysis call failed in
this run (the session SUCCESS update counts only when it is actually
attempted, i.e. when the completion condition holds). -/
def mainStepFailed (env : ProcEnv) : Bool :=
  !env.rasterOk || !env.uploadOriginalOk || !env.uploadPagesOk
    || !env.inferenceOk || !env.labeledUploadsOk || !env.findDocOk
    || !env.persistOk || !env.countOk
    || (decide (0 < env.otherDocs.length + 1
          ∧ env.otherDocs.countP (fun s => s = DocStatus.SUCCESSFUL) + 1
            = env.otherDocs.length + 1) && !env.sessUpdateOk)

/-- Outcomes of the two database-driver calls that bracket the task body:
`await db.connect()` (`processors.py` line 30, before the `try`) and
`await db.disconnect()` (line 181, in the `finally`). -/
structure TaskDbEnv where
  connectOk : Bool
  disconnectOk : Bool
deriving DecidableEq

/-- Outcome of a `db.connect()` failure: it is raised before the `try`
block exists, so the exception escapes the task — no status write is
attempted, no cleanup runs. -/
def connectFailR : RunResult :=
  { docWrites := []
    sessionWrites := []
    analysisRecord := none
    persistedFlags := none
    failedWriteAttempted := false
    cleanupAttempted := false
    aggregationEntered := false
    raised := true }

/-- Embedding of the whole detached task `process_document_async`
(`modules/sessions/processors.py` lines 24-181): `await db.connect()` runs
before the `try`, so its failure escapes the task with nothing written and
no cleanup; then the body (`process_document_async` above); then the
`finally` runs `await db.disconnect()`, whose failure escapes the task after
the body's writes and cleanup have happened. -/
def process_document_task (dbe : TaskDbEnv) (env : ProcEnv) : RunResult :=
  if dbe.connectOk = false then connectFailR
  else if dbe.disconnectOk = false then
    { process_document_async env with raised := true }
  else process_document_async env

/-- Run environment in which every step succeeds but the post-success
session count query fails. -/
def envC1 : ProcEnv :=
  { pages := [], rasterOk := true, uploadOriginalOk := true,
    uploadPagesOk := true, inferenceOk := true, labeledUploadsOk := true,
    findDocOk := true, persistOk := true, countOk := false,
    sessUpdateOk := true, markFailedOk := true, otherDocs := [],
    documentsCount := 1 }

/-- Counterexample to claim C1 as stated: when the session count query after
the SUCCESSFUL update fails, the single top-level handler overwrites the
terminal status, so this run writes SUCCESSFUL and then FAILED for the same
document. -/
theorem claim_C1_counterexample :
    (process_document_async envC1).docWrites
      = [DocStatus.SUCCESSFUL, DocStatus.FAILED] := by
  unfold process_document_async envC1
  simp [failAfterR, baseR]

/-- Claim C1 amended: in every run in which the failure-path status write
succeeds and the steps after the SUCCESSFUL write (the session count queries
and the conditional session update) succeed, the document's status receives
exactly one terminal write — SUCCESSFUL or FAILED, never both and never
reverted.  (If a post-success aggregation step fails, the handler overwrites
SUCCESSFUL with FAILED, per the counterexample.) -/
theorem claim_C1_terminal_status (env : ProcEnv)
    (hcount : env.countOk = true) (hsess : env.sessUpdateOk = true)
    (hmark : env.markFailedOk = true) :
    (process_document_async env).docWrites = [DocStatus.SUCCESSFUL]
      ∨ (process_document_async env).docWrites = [DocStatus.FAILED] := by
  unfold process_document_async
  simp only [hcount, hmark, hsess]
  split_ifs <;>
    simp_all [failBeforeR, failMidR, failAfterR, baseR]

/-- Run environment in which every step succeeds. -/
def envAllOk : ProcEnv :=
  { pages := [], rasterOk := true, uploadOriginalOk := true,
    uploadPagesOk := true, inferenceOk := true, labeledUploadsOk := true,
    findDocOk := true, persistOk := true, countOk := true,
    sessUpdateOk := true, markFailedOk := true, otherDocs := [],
    documentsCount := 1 }

/-- Witness for the amended C1 at a concrete input: the all-success run
writes exactly `[SUCCESSFUL]`. -/
theorem claim_C1_witness :
    (envAllOk.countOk = true ∧ envAllOk.sessUpdateOk = true
      ∧ envAllOk.markFailedOk = true) ∧
    ((process_document_async envAllOk).docWrites = [DocStatus.SUCCESSFUL]
      ∨ (process_document_async envAllOk).docWrites = [DocStatus.FAILED]) :=
  ⟨⟨rfl, rfl, rfl⟩, claim_C1_terminal_status envAllOk rfl rfl rfl⟩

/-- Analysis environment in which the row is created and OCR then times
out. -/
def envOcrFail : AnalysisEnv :=
  { createOk := true, download := Except.ok (),
    ocr := Except.error "timeout",
    llm := Except.ok { fraudSentences := [], mistakeWords := [],
                       documentType := "", documentSummary := "" },
    completeUpdateOk := true, failedUpdateOk := true }

set_option maxHeartbeats 1000000 in
/-- Claim C2 contradicted by the code (the claim matches the service's
design, the call site is the slip): the processor invokes
`analyze_document(document_id)` although the method requires
`(session_id, document_id)`, so every analysis attempt dies with a caught
`TypeError` before the `DocumentAnalysis` row is created — in every run the
sub-pipeline fails and nothing is recorded in `DocumentAnalysis` (first
conjunct), while the document itself still reaches SUCCESSFUL (second
conjunct).  The service itself, called correctly, does record a failure as
the claim describes: an OCR timeout yields a FAILED row with the timeout
message in `errorLog` and re-raises (last two conjuncts). -/
theorem claim_C2_analysis_isolation :
    (∀ env : ProcEnv, (process_document_async env).analysisRecord = none) ∧
    (process_document_async envAllOk).docWrites = [DocStatus.SUCCESSFUL] ∧
    (analyze_document envOcrFail "7").1
      = some { documentId := "7", status := AnalysisStatus.FAILED,
               errorLog := some "Failed to extract text from PDF: timeout",
               results := none, documentText := none } ∧
    (analyze_document envOcrFail "7").2
      = Except.error "Failed to extract text from PDF: timeout" := by
  refine ⟨?_, ?_, by rfl, by rfl⟩
  · intro env
    unfold process_document_async
    split_ifs <;> rfl
  · unfold process_document_async envAllOk
    simp [baseR]

set_option maxHeartbeats 1000000 in
lemma processBody_top_level_catch (env : ProcEnv) :
    (process_document_async env).raised = false ∧
    (mainStepFailed env = true
      ↔ (process_document_async env).failedWriteAttempted = true) ∧
    ((process_document_async env).failedWriteAttempted = true →
      (process_document_async env).cleanupAttempted = true) ∧
    (env.markFailedOk = true →
      (process_document_async env).failedWriteAttempted = true →
      (process_document_async env).docWrites.getLast?
        = some DocStatus.FAILED) ∧
    (env.markFailedOk = false →
      DocStatus.FAILED ∉ (process_document_async env).docWrites) := by
  unfold process_document_async mainStepFailed
  split_ifs <;>
    ((try simp_all [failBeforeR, failMidR, failAfterR, baseR]);
     (try assumption))

/-- Run environment whose rasterization step fails. -/
def envRasterFail : ProcEnv :=
  { pages := [], rasterOk := false, uploadOriginalOk := true,
    uploadPagesOk := true, inferenceOk := true, labeledUploadsOk := true,
    findDocOk := true, persistOk := true, countOk := true,
    sessUpdateOk := true, markFailedOk := true, otherDocs := [],
    documentsCount := 1 }

/-- Connect succeeds and disconnect succeeds. -/
def dbOk : TaskDbEnv := { connectOk := true, disconnectOk := true }

/-- `db.connect()` fails. -/
def dbConnFail : TaskDbEnv := { connectOk := false, disconnectOk := true }

/-- `db.disconnect()` fails. -/
def dbDiscFail : TaskDbEnv := { connectOk := true, disconnectOk := false }

/-- Counterexample to claim C3 as stated: `await db.connect()` (line 30)
runs before the `try` block, so its failure is a step failure that is not
caught — the exception escapes the detached task, the document is never
marked FAILED and no cleanup is attempted; and even a handled body failure
is followed by `await db.disconnect()` in the `finally` (line 181), whose
failure also escapes the task. -/
theorem claim_C3_counterexample :
    (process_document_task dbConnFail envAllOk).raised = true ∧
    (process_document_task dbConnFail envAllOk).docWrites = [] ∧
    (process_document_task dbConnFail envAllOk).failedWriteAttempted
      = false ∧
    (process_document_task dbConnFail envAllOk).cleanupAttempted = false ∧
    (process_document_task dbDiscFail envRasterFail).raised = true := by
  refine ⟨rfl, rfl, rfl, rfl, rfl⟩

/-- Claim C3 amended: provided the task's `db.connect()` (before the `try`)
and `db.disconnect()` (in the `finally`) succeed, any step failure outside
the isolated analysis call is handled exactly by the single top-level
handler — the FAILED write is attempted (and lands, as the last status
write, when it succeeds), a failure of that write is swallowed, cleanup is
attempted, and no exception escapes the task.  (When connect or disconnect
fails, the exception escapes, per the counterexample.) -/
theorem claim_C3_top_level_catch (dbe : TaskDbEnv) (env : ProcEnv)
    (hconn : dbe.connectOk = true) (hdisc : dbe.disconnectOk = true) :
    (process_document_task dbe env).raised = false ∧
    (mainStepFailed env = true
      ↔ (process_document_task dbe env).failedWriteAttempted = true) ∧
    ((process_document_task dbe env).failedWriteAttempted = true →
      (process_document_task dbe env).cleanupAttempted = true) ∧
    (env.markFailedOk = true →
      (process_document_task dbe env).failedWriteAttempted = true →
      (process_document_task dbe env).docWrites.getLast?
        = some DocStatus.FAILED) ∧
    (env.markFailedOk = false →
      DocStatus.FAILED ∉ (process_document_task dbe env).docWrites) := by
  have hb : process_document_task dbe env = process_document_async env := by
    unfold process_document_task
    rw [hconn, hdisc]
    simp
  rw [hb]
  exact processBody_top_level_catch env

/-- Witness for the amended C3 at a concrete input: connect and disconnect
succeed and the rasterization step fails. -/
theorem claim_C3_witness :
    (dbOk.connectOk = true ∧ dbOk.disconnectOk = true) ∧
    ((process_document_task dbOk envRasterFail).raised = false ∧
    (mainStepFailed envRasterFail = true
      ↔ (process_document_task dbOk envRasterFail).failedWriteAttempted
          = true) ∧
    ((process_document_task dbOk envRasterFail).failedWriteAttempted
        = true →
      (process_document_task dbOk envRasterFail).cleanupAttempted = true) ∧
    (envRasterFail.markFailedOk = true →
      (process_document_task dbOk envRasterFail).failedWriteAttempted
        = true →
      (process_document_task dbOk envRasterFail).docWrites.getLast?
        = some DocStatus.FAILED) ∧
    (envRasterFail.markFailedOk = false →
      DocStatus.FAILED
        ∉ (process_document_task dbOk envRasterFail).docWrites)) :=
  ⟨⟨rfl, rfl⟩, claim_C3_top_level_catch dbOk envRasterFail rfl rfl⟩

set_option maxHeartbeats 1600000 in
/-- Claim C4: on the success path (all steps up to and including the session
machinery succeed) the session status is set to SUCCESS exactly when the
SUCCESSFUL-document count equals `documentsCount` and that count is
positive, where the intake invariant `documentsCount = row count` is assumed
(first part); a session with a FAILED document is never updated on any path
(second part); and the failure path never writes the session status (third
part). -/
theorem claim_C4_session_success :
    (∀ env : ProcEnv,
      env.documentsCount = env.otherDocs.length + 1 →
      env.rasterOk = true → env.uploadOriginalOk = true →
      env.uploadPagesOk = true → env.inferenceOk = true →
      env.labeledUploadsOk = true → env.findDocOk = true →
      env.persistOk = true → env.countOk = true → env.sessUpdateOk = true →
      ((process_document_async env).sessionWrites = [SessionStatus.SUCCESS]
        ↔ (env.otherDocs.countP (fun s => s = DocStatus.SUCCESSFUL) + 1
            = env.documentsCount ∧ 0 < env.documentsCount)) ∧
      (process_document_async env).docWrites = [DocStatus.SUCCESSFUL] ∧
      (process_document_async env).aggregationEntered = true) ∧
    (∀ env : ProcEnv, DocStatus.FAILED ∈ env.otherDocs →
      (process_document_async env).sessionWrites = []) ∧
    (∀ env : ProcEnv,
      (process_document_async env).failedWriteAttempted = true →
      (process_document_async env).sessionWrites = []) := by
  refine ⟨?_, ?_, ?_⟩
  · intro env hdc h1 h2 h3 h4 h5 h6 h7 h8 h9
    unfold process_document_async
    simp only [h1, h2, h3, h4, h5, h6, h7, h8, h9, Bool.true_eq_false,
      if_false]
    split_ifs with hcond
    · refine ⟨?_, rfl, rfl⟩
      constructor
      · intro _
        exact ⟨by omega, by omega⟩
      · intro _
        rfl
    · refine ⟨?_, rfl, rfl⟩
      constructor
      · intro hw
        have hw2 : ([] : List SessionStatus) = [SessionStatus.SUCCESS] := hw
        exact List.noConfusion hw2
      · intro hrhs
        exfalso
        apply hcond
        exact ⟨by omega, by omega⟩
  · intro env hmem
    have hle := List.countP_le_length
      (p := fun s => decide (s = DocStatus.SUCCESSFUL)) (l := env.otherDocs)
    have hlt : env.otherDocs.countP (fun s => s = DocStatus.SUCCESSFUL)
        < env.otherDocs.length := by
      rcases Nat.lt_or_ge (env.otherDocs.countP
          (fun s => s = DocStatus.SUCCESSFUL)) env.otherDocs.length with
        h | h
      · exact h
      · exfalso
        have heq : env.otherDocs.countP
            (fun s => s = DocStatus.SUCCESSFUL) = env.otherDocs.length := by
          omega
        have hall := List.countP_eq_length.mp heq
        have := hall DocStatus.FAILED hmem
        simp at this
    unfold process_document_async
    split_ifs with g1 g2 g3 g4 g5 g6 g7 g8 g9 g10 <;> try rfl
    omega
  · intro env
    unfold process_document_async
    split_ifs <;> simp [failBeforeR, failMidR, failAfterR, baseR]

/-- Run environment completing a two-document session whose other document
is already SUCCESSFUL. -/
def envW4 : ProcEnv :=
  { pages := [], rasterOk := true, uploadOriginalOk := true,
    uploadPagesOk := true, inferenceOk := true, labeledUploadsOk := true,
    findDocOk := true, persistOk := true, countOk := true,
    sessUpdateOk := true, markFailedOk := true,
    otherDocs := [DocStatus.SUCCESSFUL], documentsCount := 2 }

/-- Run environment whose session holds a FAILED document. -/
def envW4f : ProcEnv :=
  { envW4 with otherDocs := [DocStatus.FAILED], documentsCount := 2 }

set_option maxHeartbeats 1600000 in
/-- Witness for C4 at concrete inputs: the completing run and a run over a
session containing a FAILED document. -/
theorem claim_C4_witness :
    (((process_document_async envW4).sessionWrites
        = [SessionStatus.SUCCESS]
      ↔ (envW4.otherDocs.countP (fun s => s = DocStatus.SUCCESSFUL) + 1
          = envW4.documentsCount ∧ 0 < envW4.documentsCount)) ∧
     (process_document_async envW4).docWrites = [DocStatus.SUCCESSFUL] ∧
     (process_document_async envW4).aggregationEntered = true) ∧
    (process_document_async envW4f).sessionWrites = [] :=
  ⟨claim_C4_session_success.1 envW4 rfl rfl rfl rfl rfl rfl rfl rfl rfl rfl,
   claim_C4_session_success.2.1 envW4f (by decide)⟩

end AltaiTanba
